import Mathlib

/-!
Verification of the revenue-forecast preprocessing core
(src/src/data/preprocessor.py) against its specification.

The development shallowly embeds the two components the spec calls the
Period Normalizer and the Rolling Window Splitter:

- DataPreprocessor._parse_period (preprocessor.py lines 75-93): the
  Python code normalizes quotes with period_str.replace, decodes the
  result with json.loads, and then extracts
  period_dict.get('type', \x7b\x7d).get('S', None) and
  period_dict.get('start_date', \x7b\x7d).get('S', None), catching
  JSONDecodeError and AttributeError and returning (None, None).
  We embed a strict JSON decoder (PyVal / json_loads) mirroring
  Python's json.loads on the string domain, and parse_period on top
  of it, with the except-clause made explicit in the match structure.

- DataPreprocessor._load_and_validate_data (lines 36-50): required
  column check; embedded as load_and_validate_data over a column-named
  frame, returning Except to model the raised ValueError.

- RollingForecastSplitter._process_single_file (lines 145-189):
  pd.to_datetime(errors='coerce'), sort_values by start_date, a
  minimum-size guard, and the iloc slicing that defines the three
  windows.  pandas sort_values is called with its default
  kind='quicksort', which sorts ascending with NaT placed last
  (na_position='last' default) but guarantees nothing about the
  relative order of rows with equal keys; the sort is therefore
  embedded as the relation SortValuesOut (output is a permutation of
  the input that is ascending with nulls last), and the deterministic
  slicing that follows it as the function split_sorted.
-/

namespace RevForecast

/-! ## Python values produced by json.loads -/

/-- Result of a successful Python json.loads call: null, booleans,
numbers (kept as their source literal; their numeric value is never
consulted by the code under verification), strings, arrays, objects.
Python dicts built from duplicate keys keep the last binding, which
py_dict_get below reproduces. -/
inductive PyVal where
  | null
  | bool (b : Bool)
  | num (lit : String)
  | str (s : String)
  | arr (elems : List PyVal)
  | obj (fields : List (String × PyVal))

/-! ## Lexical helpers for the json.loads model -/

/-- JSON insignificant whitespace, as accepted by Python json.loads:
space, tab, line feed, carriage return. -/
def isJsonWs (c : Char) : Bool :=
  [' ', '\t', '\n', '\r'].contains c

/-- Drop leading JSON whitespace. -/
def skipJsonWs (input : List Char) : List Char :=
  match input with
  | [] => []
  | c :: rest => if isJsonWs c then skipJsonWs rest else input

/-- Longest prefix of decimal digits, and the remainder. -/
def takeDigits : List Char → List Char × List Char
  | c :: cs =>
    if c.isDigit then
      let p := takeDigits cs
      (c :: p.1, p.2)
    else ([], c :: cs)
  | [] => ([], [])

/-- Value of one hexadecimal digit, read off the code point ranges for
0-9, a-f and A-F. -/
def hexDigitVal (c : Char) : Option Nat :=
  let n := c.toNat
  if 48 ≤ n ∧ n ≤ 57 then some (n - 48)
  else if 97 ≤ n ∧ n ≤ 102 then some (n - 87)
  else if 65 ≤ n ∧ n ≤ 70 then some (n - 55)
  else none

/-- Association table of the two-character JSON escapes (strict mode of
Python json.loads), from the escape letter to the character it denotes. -/
def escTable : List (Char × Char) :=
  [('"', '"'), ('\\', '\\'), ('/', '/'), ('b', Char.ofNat 8),
   ('f', Char.ofNat 12), ('n', '\n'), ('r', '\r'), ('t', '\t')]

/-- Simple JSON escape characters, looked up in escTable. -/
def jsonEscape (c : Char) : Option Char :=
  escTable.lookup c

/-- Contents of a JSON string after the opening quote: returns the
decoded characters and the input past the closing quote.  Strict mode:
unescaped control characters are rejected, as are unknown escapes. -/
def parseStrChars : List Char → Option (List Char × List Char)
  | [] => none
  | c :: cs =>
    if c = '"' then some ([], cs)
    else if c = '\\' then
      match cs with
      | 'u' :: a :: b :: c1 :: d :: rest =>
        match hexDigitVal a, hexDigitVal b, hexDigitVal c1, hexDigitVal d with
        | some va, some vb, some vc, some vd =>
          match parseStrChars rest with
          | some p =>
            some (Char.ofNat (((va * 16 + vb) * 16 + vc) * 16 + vd) :: p.1, p.2)
          | none => none
        | _, _, _, _ => none
      | e :: rest =>
        match jsonEscape e with
        | some r =>
          match parseStrChars rest with
          | some p => some (r :: p.1, p.2)
          | none => none
        | none => none
      | [] => none
    else if c.toNat < 32 then none
    else
      match parseStrChars cs with
      | some p => some (c :: p.1, p.2)
      | none => none

/-- Integer part of a JSON number: a single zero, or a nonzero digit
followed by digits (leading zeros are rejected, as in Python). -/
def parseIntDigits : List Char → Option (List Char × List Char)
  | '0' :: cs => some (['0'], cs)
  | c :: cs =>
    if c.isDigit then
      let p := takeDigits cs
      some (c :: p.1, p.2)
    else none
  | [] => none

/-- Optional fraction part: a dot must be followed by at least one digit. -/
def parseFracDigits : List Char → Option (List Char × List Char)
  | '.' :: cs =>
    let p := takeDigits cs
    if p.1.isEmpty then none else some ('.' :: p.1, p.2)
  | cs => some ([], cs)

/-- Optional exponent part: e or E, an optional sign, then digits. -/
def parseExpDigits : List Char → Option (List Char × List Char)
  | c :: cs =>
    if c == 'e' || c == 'E' then
      match cs with
      | s :: cs2 =>
        if s == '+' || s == '-' then
          let p := takeDigits cs2
          if p.1.isEmpty then none else some (c :: s :: p.1, p.2)
        else
          let p := takeDigits (s :: cs2)
          if p.1.isEmpty then none else some (c :: p.1, p.2)
      | [] => none
    else some ([], c :: cs)
  | [] => some ([], [])

/-- JSON number literal, stored verbatim. -/
def parseNumLit (cs : List Char) : Option (List Char × List Char) :=
  match cs with
  | '-' :: cs1 =>
    match parseIntDigits cs1 with
    | some (ds, r1) =>
      match parseFracDigits r1 with
      | some (fs, r2) =>
        match parseExpDigits r2 with
        | some (es, r3) => some ('-' :: (ds ++ fs ++ es), r3)
        | none => none
      | none => none
    | none => none
  | _ =>
    match parseIntDigits cs with
    | some (ds, r1) =>
      match parseFracDigits r1 with
      | some (fs, r2) =>
        match parseExpDigits r2 with
        | some (es, r3) => some (ds ++ fs ++ es, r3)
        | none => none
      | none => none
    | none => none

/-! ## The recursive decoder (fuel-structured, as json.loads is total
on finite input). -/

mutual

/-- One JSON value (after optional leading whitespace), mirroring the
grammar Python json.loads accepts: the standard JSON grammar plus the
NaN / Infinity / -Infinity constants Python allows by default (kept as
number literals; the code under verification never looks inside them). -/
def parseVal (fuel : Nat) (cs : List Char) : Option (PyVal × List Char) :=
  match fuel with
  | 0 => none
  | fuel + 1 =>
    match skipJsonWs cs with
    | '"' :: r =>
      match parseStrChars r with
      | some (s, r1) => some (PyVal.str ⟨s⟩, r1)
      | none => none
    | '{' :: r =>
      match skipJsonWs r with
      | '}' :: r1 => some (PyVal.obj [], r1)
      | r1 =>
        match parseMembers fuel r1 with
        | some (ms, r2) => some (PyVal.obj ms, r2)
        | none => none
    | '[' :: r =>
      match skipJsonWs r with
      | ']' :: r1 => some (PyVal.arr [], r1)
      | r1 =>
        match parseElems fuel r1 with
        | some (es, r2) => some (PyVal.arr es, r2)
        | none => none
    | 'n' :: 'u' :: 'l' :: 'l' :: r => some (PyVal.null, r)
    | 'N' :: 'a' :: 'N' :: r => some (PyVal.num "NaN", r)
    | 't' :: 'r' :: 'u' :: 'e' :: r => some (PyVal.bool true, r)
    | 'f' :: 'a' :: 'l' :: 's' :: 'e' :: r => some (PyVal.bool false, r)
    | 'I' :: 'n' :: 'f' :: 'i' :: 'n' :: 'i' :: 't' :: 'y' :: r =>
      some (PyVal.num "Infinity", r)
    | '-' :: 'I' :: 'n' :: 'f' :: 'i' :: 'n' :: 'i' :: 't' :: 'y' :: r =>
      some (PyVal.num "-Infinity", r)
    | cs1 =>
      match parseNumLit cs1 with
      | some (lit, r1) => some (PyVal.num ⟨lit⟩, r1)
      | none => none

/-- One or more comma-separated object members, consuming the closing
brace.  Keys must be JSON strings, as in Python. -/
def parseMembers (fuel : Nat) (cs : List Char) :
    Option (List (String × PyVal) × List Char) :=
  match fuel with
  | 0 => none
  | fuel + 1 =>
    match skipJsonWs cs with
    | '"' :: r =>
      match parseStrChars r with
      | some (key, r1) =>
        match skipJsonWs r1 with
        | ':' :: r2 =>
          match parseVal fuel r2 with
          | some (v, r3) =>
            match skipJsonWs r3 with
            | ',' :: r4 =>
              match parseMembers fuel r4 with
              | some (ms, r5) => some ((⟨key⟩, v) :: ms, r5)
              | none => none
            | '}' :: r4 => some ([(⟨key⟩, v)], r4)
            | _ => none
          | none => none
        | _ => none
      | none => none
    | _ => none

/-- One or more comma-separated array elements, consuming the closing
bracket. -/
def parseElems (fuel : Nat) (cs : List Char) :
    Option (List PyVal × List Char) :=
  match fuel with
  | 0 => none
  | fuel + 1 =>
    match parseVal fuel cs with
    | some (v, r) =>
      match skipJsonWs r with
      | ',' :: r1 =>
        match parseElems fuel r1 with
        | some (es, r2) => some (v :: es, r2)
        | none => none
      | ']' :: r1 => some ([v], r1)
      | _ => none
    | none => none

end

/-- Model of Python json.loads on a string: one JSON document with
optional surrounding whitespace; trailing characters are an error.
none is a raised json.JSONDecodeError. -/
def json_loads (s : String) : Option PyVal :=
  match parseVal (s.data.length + 1) s.data with
  | some (v, rest) => if (skipJsonWs rest).isEmpty then some v else none
  | none => none

/-! ## DataPreprocessor._parse_period -/

/-- Python dict lookup d.get(k, default-absent) for a dict built from
an ordered association list: the last binding of a duplicated key wins,
as in Python dict construction. -/
def py_dict_get (fields : List (String × PyVal)) (k : String) : Option PyVal :=
  fields.foldl (fun acc p => if p.1 = k then some p.2 else acc) none

/-- Python collapses a JSON null payload to None, which the caller of
dict.get cannot tell apart from an absent key; this normalization
reproduces that. -/
def py_none_norm : Option PyVal → Option PyVal
  | some PyVal.null => none
  | v => v

/-- The single-quote character. -/
def sqChar : Char := Char.ofNat 39

/-- Model of period_str.replace applied at preprocessor.py line 87:
every single quote becomes a double quote. -/
def py_replace_quotes (s : String) : String :=
  ⟨s.data.map (fun c => if c = sqChar then '"' else c)⟩

/-- Embedding of DataPreprocessor._parse_period (preprocessor.py lines
75-93).  The fallthrough (none, none) arms are the except clause: a
json.JSONDecodeError from json.loads (json_loads = none), or an
AttributeError from calling .get on a non-dict — the decoded document
itself, the value under the key type, or the value under the key
start_date (evaluated in that order, so a failure discards any payload
already extracted).  On the success path each component is
period_dict.get(key, empty-dict).get(S-key, None) individually, so an
absent key yields None for that component only. -/
def parse_period (period_str : String) : Option PyVal × Option PyVal :=
  match json_loads (py_replace_quotes period_str) with
  | none => (none, none)
  | some period_dict =>
    match period_dict with
    | PyVal.obj fields =>
      match (py_dict_get fields "type").getD (PyVal.obj []) with
      | PyVal.obj tfields =>
        match (py_dict_get fields "start_date").getD (PyVal.obj []) with
        | PyVal.obj sfields =>
          (py_none_norm (py_dict_get tfields "S"),
           py_none_norm (py_dict_get sfields "S"))
        | _ => (none, none)
      | _ => (none, none)
    | _ => (none, none)

/-! ## RollingForecastSplitter._process_single_file -/

/-- A row of a Series Group artifact as stored on disk: the start_date
column text, and the remaining columns (opaque to the splitter, which
only reads start_date). -/
structure RawSRow where
  start_date : String
  payload : String
deriving DecidableEq, Repr

/-- A row after pd.to_datetime(errors='coerce') at preprocessor.py
line 158: the date is parsed, or none for NaT. -/
structure SRow where
  start_date : Option Nat
  payload : String
deriving DecidableEq, Repr

/-- Gregorian leap-year rule. -/
def is_leap_year (y : Nat) : Bool :=
  (y % 4 == 0 && y % 100 != 0) || y % 400 == 0

/-- Number of days in a month. -/
def days_in_month (y m : Nat) : Nat :=
  if m == 2 then (if is_leap_year y then 29 else 28)
  else if m == 4 || m == 6 || m == 9 || m == 11 then 30
  else 31

/-- Model of pd.to_datetime(column, errors='coerce') on one cell,
restricted to the ISO YYYY-MM-DD text this pipeline writes into its
intermediate artifacts (spec section 6); any other text, or a
calendar-invalid date, coerces to NaT (none).  A valid date is encoded
order-preservingly as (y * 100 + m) * 100 + d. -/
def to_datetime (s : String) : Option Nat :=
  match s.data with
  | [y1, y2, y3, y4, h1, m1, m2, h2, d1, d2] =>
    if h1 == '-' && h2 == '-' && y1.isDigit && y2.isDigit && y3.isDigit &&
        y4.isDigit && m1.isDigit && m2.isDigit && d1.isDigit && d2.isDigit then
      let y := ((y1.toNat - 48) * 10 + (y2.toNat - 48)) * 100 +
        ((y3.toNat - 48) * 10 + (y4.toNat - 48))
      let m := (m1.toNat - 48) * 10 + (m2.toNat - 48)
      let d := (d1.toNat - 48) * 10 + (d2.toNat - 48)
      if 1 ≤ m && m ≤ 12 && 1 ≤ d && d ≤ days_in_month y m then
        some ((y * 100 + m) * 100 + d)
      else none
    else none
  | _ => none

/-- The coercion step df[start_date] = pd.to_datetime(df[start_date],
errors='coerce') applied to one row. -/
def coerce_row (r : RawSRow) : SRow :=
  ⟨to_datetime r.start_date, r.payload⟩

/-- Key order used by df.sort_values(by=start_date): ascending on
parsed dates with NaT sorted last (the pandas default
na_position='last'). -/
def na_last_le (a b : Option Nat) : Bool :=
  match a, b with
  | _, none => true
  | none, some _ => false
  | some x, some y => x ≤ y

/-- Relational embedding of df.sort_values(by=start_date) at
preprocessor.py line 161.  The call uses the pandas default
kind='quicksort', whose contract promises an ascending rearrangement
with NaT keys placed last but promises nothing about the relative
order of rows with equal keys (only kind='stable' or kind='mergesort'
would); the embedding therefore admits every permutation of the input
whose key sequence is ascending in na_last_le. -/
def SortValuesOut (inp out : List SRow) : Prop :=
  List.Perm inp out ∧
    List.Pairwise (fun r s => na_last_le r.start_date s.start_date = true) out

/-- The three slices written by _process_single_file. -/
structure SplitResult where
  train : List SRow
  initial_test : List SRow
  final_test : List SRow
deriving DecidableEq, Repr

/-- Embedding of the slicing at preprocessor.py lines 169-171, applied
to the sorted frame df (reached only when the minimum-size guard has
passed):
  train_df        = df.iloc[:-8]
  initial_test_df = df.iloc[-8:]
  final_test_df   = initial_test_df.iloc[:-4]
With Nat subtraction, take (n - 8) and drop (n - 8) agree with the
Python negative slices for every n, including n < 8. -/
def split_sorted (df : List SRow) : SplitResult :=
  let train_df := df.take (df.length - 8)
  let initial_test_df := df.drop (df.length - 8)
  let final_test_df := initial_test_df.take (initial_test_df.length - 4)
  ⟨train_df, initial_test_df, final_test_df⟩

/-- Relational embedding of RollingForecastSplitter._process_single_file
(preprocessor.py lines 145-189) on one Series Group artifact: coerce
the stored dates, sort (relationally, see SortValuesOut), then either
skip the group (out = none, nothing written) when the row count is
below min_data_points — the guard at line 164 — or emit the three
slices of split_sorted, all three of which are written to disk at
lines 179-181. -/
def ProcessSingleFile (raw : List RawSRow) (min_data_points : Nat)
    (out : Option SplitResult) : Prop :=
  ∃ sorted, SortValuesOut (raw.map coerce_row) sorted ∧
    out = if sorted.length < min_data_points then none
      else some (split_sorted sorted)

/-! ## DataPreprocessor._load_and_validate_data -/

/-- A loaded CSV: header names and rows of cells. -/
structure RawFrame where
  columns : List String
  rows : List (List String)
deriving DecidableEq, Repr

/-- The required column list of preprocessor.py line 40.  The spec
names the first column entity_id; its glossary defines Entity as the
partner identifier, which the source spells partner_id. -/
def required_columns : List String :=
  ["partner_id", "period", "report_type", "value"]

/-- Cell of a row under a named column (empty when absent; only ever
used after the presence check has passed). -/
def cell_at (cols : List String) (row : List String) (c : String) : String :=
  match cols.indexOf? c with
  | some i => (row.get? i).getD ""
  | none => ""

/-- Embedding of DataPreprocessor._load_and_validate_data
(preprocessor.py lines 36-50) after the CSV read: if any required
column is absent a ValueError is raised (Except.error, carrying no
rows — the whole input is rejected as one unit); otherwise the frame
is narrowed to the required columns, df[required_columns], and
returned whole. -/
def load_and_validate_data (df : RawFrame) : Except String RawFrame :=
  if required_columns.all (fun c => df.columns.contains c) then
    Except.ok ⟨required_columns,
      df.rows.map (fun row => required_columns.map (cell_at df.columns row))⟩
  else
    Except.error "Missing required columns"

/-! ## Concrete inputs and statement vocabulary used by the theorems -/

/-- Discriminator for Python values that support the .get attribute:
only dicts do, so calling .get on anything else raises AttributeError. -/
def py_is_obj : PyVal → Bool
  | PyVal.obj _ => true
  | _ => false

/-- Characters allowed in a period payload for the valid-period-string
family of section 8 of the spec: no quote of either kind, no backslash,
no control character, so the payload passes through quote
normalization and string decoding verbatim. -/
def plain_char (c : Char) : Bool :=
  c != '"' && c != sqChar && c != '\\' && 32 ≤ c.toNat

/-- Plain-payload side condition for the valid-period-string family. -/
def plain_str (s : String) : Prop := s.data.all plain_char = true

/-- Character list of a period string of the spec's section 8 form,
with quote character q and payloads T and D:
q=type-keyq: \x7bqSq: qTq\x7d, qstart_dateq: \x7bqSq: qDq\x7d
all wrapped in one outer brace pair. -/
def mk_period_chars (q : Char) (T D : List Char) : List Char :=
  '{' :: q :: 't' :: 'y' :: 'p' :: 'e' :: q :: ':' :: ' ' ::
  '{' :: q :: 'S' :: q :: ':' :: ' ' :: q ::
  (T ++ (q :: '}' :: ',' :: ' ' :: q ::
    's' :: 't' :: 'a' :: 'r' :: 't' :: '_' :: 'd' :: 'a' :: 't' :: 'e' ::
    q :: ':' :: ' ' :: '{' :: q :: 'S' :: q :: ':' :: ' ' :: q ::
    (D ++ (q :: '}' :: '}' :: []))))

/-- String form of mk_period_chars. -/
def mk_period_str (q : Char) (T D : String) : String :=
  ⟨mk_period_chars q T.data D.data⟩

/-- Builder for concrete single-quoted test inputs: rewrites the
double quotes of a Lean string literal into single quotes (the
external wire format under test); scaffolding for stating concrete
inputs only, not part of the embedded program. -/
def sq_of (s : String) : String :=
  ⟨s.data.map (fun c => if c = '"' then sqChar else c)⟩

/-- Decoded input whose period field is a dict that carries type but
no start_date key (single-quoted, as in the raw data). -/
def c2input : String := sq_of "\x7b\"type\": \x7b\"S\": \"M\"\x7d\x7d"

/-- Decoded input whose period field is a dict that carries start_date
but no type key. -/
def c6input : String := sq_of "\x7b\"start_date\": \x7b\"S\": \"2024-01-01\"\x7d\x7d"

/-- Period string of the spec's two-level wrapped form whose type-tag
key is N rather than S. -/
def c5input : String :=
  sq_of "\x7b\"type\": \x7b\"N\": \"M\"\x7d, \"start_date\": \x7b\"N\": \"2024-01-01\"\x7d\x7d"

/-- Formalization of the stability sentence of the claim: any two rows
with equal timestamps that occur in this order in the input still
occur in this order in the output. -/
def keeps_tie_order (inp out : List SRow) : Prop :=
  ∀ a b : SRow, a.start_date = b.start_date →
    List.Sublist [a, b] inp → List.Sublist [a, b] out

/-- Shorthand row constructor for concrete series-group rows. -/
def exRow (d : Nat) (p : String) : SRow := ⟨some d, p⟩

/-- An already-sorted series group of 8 rows with strictly increasing
(monthly) timestamps. -/
def exGroup8 : List SRow :=
  [exRow 20240101 "r1", exRow 20240201 "r2", exRow 20240301 "r3",
   exRow 20240401 "r4", exRow 20240501 "r5", exRow 20240601 "r6",
   exRow 20240701 "r7", exRow 20240801 "r8"]

/-- An already-sorted series group of 9 rows. -/
def exGroup9 : List SRow := exGroup8 ++ [exRow 20240901 "r9"]

/-- A stored series-group artifact with 7 rows (ISO dates, ascending). -/
def ex7raw : List RawSRow :=
  [⟨"2024-01-01", "r1"⟩, ⟨"2024-02-01", "r2"⟩, ⟨"2024-03-01", "r3"⟩,
   ⟨"2024-04-01", "r4"⟩, ⟨"2024-05-01", "r5"⟩, ⟨"2024-06-01", "r6"⟩,
   ⟨"2024-07-01", "r7"⟩]

/-- A stored series-group artifact with exactly 8 rows. -/
def ex8raw : List RawSRow := ex7raw ++ [⟨"2024-08-01", "r8"⟩]

/-- A stored series-group artifact with 9 rows of which two have
unparseable timestamps. -/
def exNullRaw : List RawSRow :=
  [⟨"2024-01-01", "r1"⟩, ⟨"not a date", "x1"⟩, ⟨"2024-03-01", "r3"⟩,
   ⟨"2024-04-01", "r4"⟩, ⟨"2024-05-01", "r5"⟩, ⟨"2024-06-01", "r6"⟩,
   ⟨"2024-07-31T00", "x2"⟩, ⟨"2024-08-01", "r8"⟩, ⟨"2024-09-01", "r9"⟩]

/-- A sorted arrangement of exNullRaw after coercion: valid dates
ascending, the two NaT rows at the end. -/
def exNullSorted : List SRow :=
  [⟨some 20240101, "r1"⟩, ⟨some 20240301, "r3"⟩, ⟨some 20240401, "r4"⟩,
   ⟨some 20240501, "r5"⟩, ⟨some 20240601, "r6"⟩, ⟨some 20240801, "r8"⟩,
   ⟨some 20240901, "r9"⟩, ⟨none, "x1"⟩, ⟨none, "x2"⟩]

/-- Two rows sharing one timestamp, distinguished by payload. -/
def tieA : SRow := ⟨some 20240101, "a"⟩

/-- Second row of the tied pair. -/
def tieB : SRow := ⟨some 20240101, "b"⟩

/-! ## Helper lemmas -/

/-- Reflexivity of the sort key order. -/
theorem na_last_le_refl (a : Option Nat) : na_last_le a a = true := by
  cases a <;> simp [na_last_le]

/-- Unpacking of the plain-payload character condition. -/
theorem plain_char_spec (c : Char) (h : plain_char c = true) :
    c ≠ '"' ∧ c ≠ sqChar ∧ c ≠ '\\' ∧ 32 ≤ c.toNat := by
  simp only [plain_char, Bool.and_eq_true, bne_iff_ne, ne_eq, decide_eq_true_eq] at h
  exact ⟨h.1.1.1, h.1.1.2, h.1.2, h.2⟩

/-- A plain payload is decoded verbatim up to its closing quote. -/
theorem parseStrChars_plain (T rest : List Char) (h : T.all plain_char = true) :
    parseStrChars (T ++ '"' :: rest) = some (T, rest) := by
  induction T with
  | nil =>
    show parseStrChars ('"' :: rest) = some ([], rest)
    rw [parseStrChars.eq_def]
    rfl
  | cons c cs ih =>
    rw [List.all_cons, Bool.and_eq_true] at h
    obtain ⟨h1, h2, h3, h4⟩ := plain_char_spec c h.1
    show parseStrChars (c :: (cs ++ '"' :: rest)) = some (c :: cs, rest)
    rw [parseStrChars.eq_def]
    simp only [if_neg h1, if_neg h3, if_neg (by omega : ¬ c.toNat < 32)]
    rw [ih h.2]

/-- Whitespace skipping consumes a leading space. -/
theorem skipJsonWs_space (cs : List Char) : skipJsonWs (' ' :: cs) = skipJsonWs cs := by
  rw [skipJsonWs.eq_def]
  simp [isJsonWs]

/-- Whitespace skipping stops at a non-whitespace head. -/
theorem skipJsonWs_nonws (c : Char) (cs : List Char) (h : isJsonWs c = false) :
    skipJsonWs (c :: cs) = c :: cs := by
  rw [skipJsonWs.eq_def]
  simp [h]

/-- A leading space does not change the parsed value. -/
theorem parseVal_space (f : Nat) (cs : List Char) :
    parseVal f (' ' :: cs) = parseVal f cs := by
  rw [parseVal.eq_def]
  conv_rhs => rw [parseVal.eq_def]
  rw [skipJsonWs_space]

/-- Unfolding of the string branch of the value parser. -/
theorem parseVal_quote (g : Nat) (r : List Char) :
    parseVal (g + 1) ('"' :: r) =
      match parseStrChars r with
      | some (s, r1) => some (PyVal.str ⟨s⟩, r1)
      | none => none := by
  rw [parseVal.eq_def]
  rw [skipJsonWs_nonws '"' r (by rfl)]
  rfl

/-- Decoding a space-prefixed plain string payload. -/
theorem parseVal_payload (g : Nat) (T rest : List Char) (h : T.all plain_char = true) :
    parseVal (g + 1) (' ' :: '"' :: (T ++ ('"' :: rest))) =
      some (PyVal.str ⟨T⟩, rest) := by
  rw [parseVal_space, parseVal_quote, parseStrChars_plain T rest h]

/-- Unfolding of the object branch of the value parser when the first
member key follows immediately. -/
theorem parseVal_obj_members (g : Nat) (r : List Char) :
    parseVal (g + 1) ('{' :: '"' :: r) =
      match parseMembers g ('"' :: r) with
      | some (ms, r2) => some (PyVal.obj ms, r2)
      | none => none := by
  rw [parseVal.eq_def]
  rw [skipJsonWs_nonws '{' _ (by rfl)]
  show (match skipJsonWs ('"' :: r) with
    | '}' :: r1 => some (PyVal.obj [], r1)
    | r1 =>
      match parseMembers g r1 with
      | some (ms, r2) => some (PyVal.obj ms, r2)
      | none => none) = _
  rw [skipJsonWs_nonws '"' r (by rfl)]
  rfl

/-- Decoding of the single-member wrapper object with key S and a
plain payload, up to its closing brace. -/
theorem parseMembers_S (g : Nat) (T rest : List Char) (h : T.all plain_char = true) :
    parseMembers (g + 2) ('"' :: 'S' :: '"' :: ':' :: ' ' :: '"' ::
      (T ++ ('"' :: '}' :: rest))) =
      some ([("S", PyVal.str ⟨T⟩)], rest) := by
  have hS := parseStrChars_plain ['S']
    (':' :: ' ' :: '"' :: (T ++ ('"' :: '}' :: rest))) (by rfl)
  simp only [List.singleton_append] at hS
  have hT1 := parseVal_payload g T ('}' :: rest) h
  have hsk1 : ∀ X : List Char, skipJsonWs (':' :: X) = ':' :: X :=
    fun X => skipJsonWs_nonws ':' X (by rfl)
  have hsk2 : ∀ X : List Char, skipJsonWs ('}' :: X) = '}' :: X :=
    fun X => skipJsonWs_nonws '}' X (by rfl)
  rw [parseMembers.eq_def]
  rw [skipJsonWs_nonws '"' _ (by rfl)]
  simp only [hS, hT1, hsk1, hsk2]

/-- Decoding of the space-prefixed wrapper object value. -/
theorem parseVal_inner_obj (g : Nat) (T rest : List Char) (h : T.all plain_char = true) :
    parseVal (g + 3) (' ' :: '{' :: '"' :: 'S' :: '"' :: ':' :: ' ' :: '"' ::
      (T ++ ('"' :: '}' :: rest))) =
      some (PyVal.obj [("S", PyVal.str ⟨T⟩)], rest) := by
  rw [parseVal_space]
  rw [show g + 3 = (g + 2) + 1 from rfl, parseVal_obj_members (g + 2)]
  rw [parseMembers_S g T rest h]

/-- Decoding of the trailing start_date member together with the outer
closing brace. -/
theorem parseMembers_start_date (g : Nat) (D : List Char) (hD : D.all plain_char = true) :
    parseMembers (g + 4) (' ' :: '"' :: 's' :: 't' :: 'a' :: 'r' :: 't' :: '_' ::
      'd' :: 'a' :: 't' :: 'e' :: '"' :: ':' :: ' ' :: '{' :: '"' :: 'S' :: '"' ::
      ':' :: ' ' :: '"' :: (D ++ ('"' :: '}' :: '}' :: []))) =
      some ([("start_date", PyVal.obj [("S", PyVal.str ⟨D⟩)])], []) := by
  have hkey := parseStrChars_plain ['s', 't', 'a', 'r', 't', '_', 'd', 'a', 't', 'e']
    (':' :: ' ' :: '{' :: '"' :: 'S' :: '"' :: ':' :: ' ' :: '"' ::
      (D ++ ('"' :: '}' :: '}' :: []))) (by rfl)
  simp only [List.cons_append, List.nil_append] at hkey
  have hval := parseVal_inner_obj g D ('}' :: []) hD
  have hsk1 : ∀ X : List Char, skipJsonWs (':' :: X) = ':' :: X :=
    fun X => skipJsonWs_nonws ':' X (by rfl)
  have hsk2 : ∀ X : List Char, skipJsonWs ('}' :: X) = '}' :: X :=
    fun X => skipJsonWs_nonws '}' X (by rfl)
  rw [parseMembers.eq_def]
  rw [skipJsonWs_space, skipJsonWs_nonws '"' _ (by rfl)]
  simp only [hkey, hval, hsk1, hsk2]

/-- Decoding of the full two-member body of the period object. -/
theorem parseMembers_mk (g : Nat) (T D : List Char)
    (hT : T.all plain_char = true) (hD : D.all plain_char = true) :
    parseMembers (g + 5) ('"' :: 't' :: 'y' :: 'p' :: 'e' :: '"' :: ':' :: ' ' ::
      '{' :: '"' :: 'S' :: '"' :: ':' :: ' ' :: '"' ::
      (T ++ ('"' :: '}' :: ',' :: ' ' :: '"' :: 's' :: 't' :: 'a' :: 'r' :: 't' ::
        '_' :: 'd' :: 'a' :: 't' :: 'e' :: '"' :: ':' :: ' ' :: '{' :: '"' :: 'S' ::
        '"' :: ':' :: ' ' :: '"' :: (D ++ ('"' :: '}' :: '}' :: []))))) =
      some ([("type", PyVal.obj [("S", PyVal.str ⟨T⟩)]),
             ("start_date", PyVal.obj [("S", PyVal.str ⟨D⟩)])], []) := by
  have hkey := parseStrChars_plain ['t', 'y', 'p', 'e']
    (':' :: ' ' :: '{' :: '"' :: 'S' :: '"' :: ':' :: ' ' :: '"' ::
      (T ++ ('"' :: '}' :: ',' :: ' ' :: '"' :: 's' :: 't' :: 'a' :: 'r' :: 't' ::
        '_' :: 'd' :: 'a' :: 't' :: 'e' :: '"' :: ':' :: ' ' :: '{' :: '"' :: 'S' ::
        '"' :: ':' :: ' ' :: '"' :: (D ++ ('"' :: '}' :: '}' :: []))))) (by rfl)
  simp only [List.cons_append, List.nil_append] at hkey
  have hval := parseVal_inner_obj (g + 1) T
    (',' :: ' ' :: '"' :: 's' :: 't' :: 'a' :: 'r' :: 't' :: '_' :: 'd' :: 'a' ::
      't' :: 'e' :: '"' :: ':' :: ' ' :: '{' :: '"' :: 'S' :: '"' :: ':' :: ' ' ::
      '"' :: (D ++ ('"' :: '}' :: '}' :: []))) hT
  have hmem2 := parseMembers_start_date g D hD
  have hsk1 : ∀ X : List Char, skipJsonWs (':' :: X) = ':' :: X :=
    fun X => skipJsonWs_nonws ':' X (by rfl)
  have hskc : ∀ X : List Char, skipJsonWs (',' :: X) = ',' :: X :=
    fun X => skipJsonWs_nonws ',' X (by rfl)
  rw [parseMembers.eq_def]
  rw [skipJsonWs_nonws '"' _ (by rfl)]
  simp only [hkey, hval, hsk1, hskc, hmem2]

/-- Decoding of the whole period document (double-quoted form). -/
theorem parseVal_mk (g : Nat) (T D : List Char)
    (hT : T.all plain_char = true) (hD : D.all plain_char = true) :
    parseVal (g + 6) (mk_period_chars '"' T D) =
      some (PyVal.obj [("type", PyVal.obj [("S", PyVal.str ⟨T⟩)]),
        ("start_date", PyVal.obj [("S", PyVal.str ⟨D⟩)])], []) := by
  show parseVal ((g + 5) + 1) ('{' :: '"' :: 't' :: 'y' :: 'p' :: 'e' :: '"' :: ':' ::
    ' ' :: '{' :: '"' :: 'S' :: '"' :: ':' :: ' ' :: '"' ::
    (T ++ ('"' :: '}' :: ',' :: ' ' :: '"' :: 's' :: 't' :: 'a' :: 'r' :: 't' ::
      '_' :: 'd' :: 'a' :: 't' :: 'e' :: '"' :: ':' :: ' ' :: '{' :: '"' :: 'S' ::
      '"' :: ':' :: ' ' :: '"' :: (D ++ ('"' :: '}' :: '}' :: []))))) = _
  rw [parseVal_obj_members (g + 5)]
  rw [parseMembers_mk g T D hT hD]

/-- Model json.loads decodes the double-quoted period form. -/
theorem json_loads_mk (T D : String)
    (hT : T.data.all plain_char = true) (hD : D.data.all plain_char = true) :
    json_loads (mk_period_str '"' T D) =
      some (PyVal.obj [("type", PyVal.obj [("S", PyVal.str ⟨T.data⟩)]),
        ("start_date", PyVal.obj [("S", PyVal.str ⟨D.data⟩)])]) := by
  have hlen : (mk_period_chars '"' T.data D.data).length + 1 =
      (T.data.length + D.data.length + 39) + 6 := by
    simp [mk_period_chars]
    omega
  show (match parseVal ((mk_period_chars '"' T.data D.data).length + 1)
      (mk_period_chars '"' T.data D.data) with
    | some (v, rest) => if (skipJsonWs rest).isEmpty then some v else none
    | none => none) = _
  rw [hlen]
  rw [parseVal_mk (T.data.length + D.data.length + 39) T.data D.data hT hD]
  rfl

/-- Mapping the quote normalization over a plain payload is the identity. -/
theorem plain_map_keep (l : List Char) (h : l.all plain_char = true) :
    l.map (fun c => if c = sqChar then '"' else c) = l := by
  induction l with
  | nil => rfl
  | cons c cs ih =>
    rw [List.all_cons, Bool.and_eq_true] at h
    obtain ⟨h1, h2, h3, h4⟩ := plain_char_spec c h.1
    simp only [List.map_cons, if_neg h2, ih h.2]

/-- Quote normalization fixes the double-quoted period form. -/
theorem py_replace_mk_dq (T D : String)
    (hT : T.data.all plain_char = true) (hD : D.data.all plain_char = true) :
    py_replace_quotes (mk_period_str '"' T D) = mk_period_str '"' T D := by
  apply congrArg String.mk
  show (mk_period_chars '"' T.data D.data).map (fun c => if c = sqChar then '"' else c) =
    mk_period_chars '"' T.data D.data
  simp only [mk_period_chars, List.map_cons, List.map_append,
    plain_map_keep T.data hT, plain_map_keep D.data hD]
  rfl

/-- Quote normalization rewrites the single-quoted period form into the
double-quoted one. -/
theorem py_replace_mk_sq (T D : String)
    (hT : T.data.all plain_char = true) (hD : D.data.all plain_char = true) :
    py_replace_quotes (mk_period_str sqChar T D) = mk_period_str '"' T D := by
  apply congrArg String.mk
  show (mk_period_chars sqChar T.data D.data).map (fun c => if c = sqChar then '"' else c) =
    mk_period_chars '"' T.data D.data
  simp only [mk_period_chars, List.map_cons, List.map_append,
    plain_map_keep T.data hT, plain_map_keep D.data hD]
  rfl

/-! ## The claims -/

/-- C1, counterexample: on a sorted 8-row group the emitted final_test
slice is not the chronologically-last 4 rows and is not a suffix of
initial_test, because line 171 computes initial_test_df.iloc[:-4],
which removes the last 4 rows and keeps the first 4. -/
theorem c1_final_test_not_last_counterexample :
    SortValuesOut exGroup8 exGroup8 ∧ 8 ≤ exGroup8.length ∧
    (split_sorted exGroup8).final_test ≠ exGroup8.drop (exGroup8.length - 4) ∧
    ¬ List.IsSuffix (split_sorted exGroup8).final_test
      (split_sorted exGroup8).initial_test := by
  refine ⟨⟨List.Perm.refl _, by decide⟩, by decide, by decide, by decide⟩

/-- C1, amended: for every sorted series group with n >= 8 rows, the
emitted final_test slice is the FIRST 4 rows of initial_test (rows
n-8 .. n-5 of the sorted series) and so a prefix of initial_test, not a
suffix. -/
theorem c1_final_test_amended (df : List SRow)
    (_hsorted : List.Pairwise (fun r s => na_last_le r.start_date s.start_date = true) df)
    (h8 : 8 ≤ df.length) :
    (split_sorted df).final_test = (df.drop (df.length - 8)).take 4 ∧
    ∃ rest, (split_sorted df).final_test ++ rest = (split_sorted df).initial_test := by
  have hlen : (df.drop (df.length - 8)).length = 8 := by
    rw [List.length_drop]; omega
  have hf : (split_sorted df).final_test = (df.drop (df.length - 8)).take 4 := by
    show (df.drop (df.length - 8)).take ((df.drop (df.length - 8)).length - 4) = _
    rw [hlen]
  refine ⟨hf, (split_sorted df).initial_test.drop 4, ?_⟩
  rw [hf]
  exact List.take_append_drop 4 _

/-- C1, witness for the amended statement at a concrete sorted 8-row
group. -/
theorem c1_final_test_amended_witness :
    List.Pairwise (fun r s => na_last_le r.start_date s.start_date = true) exGroup8 ∧
    8 ≤ exGroup8.length ∧
    (split_sorted exGroup8).final_test = (exGroup8.drop (exGroup8.length - 8)).take 4 :=
  ⟨by decide, by decide,
    (c1_final_test_amended exGroup8 (by decide) (by decide)).1⟩

/-- C3, counterexample: the sort relation of sort_values with the
default kind='quicksort' admits an output that reorders two rows with
equal timestamps, so the claimed stability guarantee does not hold of
the code. -/
theorem c3_stable_sort_counterexample :
    tieA.start_date = tieB.start_date ∧
    SortValuesOut [tieA, tieB] [tieB, tieA] ∧
    ¬ keeps_tie_order [tieA, tieB] [tieB, tieA] := by
  refine ⟨rfl, ⟨List.Perm.swap tieB tieA [], by decide⟩, fun h => ?_⟩
  exact absurd (h tieA tieB rfl (by decide)) (by decide)

/-- C3, amended: every output of the sort step is a permutation of the
group (same length, same row multiset) whose key sequence is ascending
with nulls last; the relative order of rows with equal timestamps is
not specified, since the code requests the default non-stable
quicksort rather than kind='stable'. -/
theorem c3_sort_amended (inp out : List SRow) (h : SortValuesOut inp out) :
    out.length = inp.length ∧ (∀ r : SRow, out.count r = inp.count r) ∧
    ∀ (i j : Fin out.length), (i : Nat) ≤ (j : Nat) →
      na_last_le (out.get i).start_date (out.get j).start_date = true := by
  obtain ⟨hperm, hpw⟩ := h
  refine ⟨hperm.length_eq.symm, fun r => (hperm.count_eq r).symm, ?_⟩
  intro i j hij
  rcases Nat.eq_or_lt_of_le hij with heq | hlt
  · have : i = j := Fin.ext heq
    subst this
    exact na_last_le_refl _
  · exact List.pairwise_iff_get.mp hpw i j hlt

/-- C3, witness for the amended statement at a concrete two-row group. -/
theorem c3_sort_amended_witness :
    SortValuesOut [exRow 20240201 "b", exRow 20240101 "a"]
      [exRow 20240101 "a", exRow 20240201 "b"] ∧
    ([exRow 20240101 "a", exRow 20240201 "b"] : List SRow).length =
      ([exRow 20240201 "b", exRow 20240101 "a"] : List SRow).length := by
  have hp : SortValuesOut [exRow 20240201 "b", exRow 20240101 "a"]
      [exRow 20240101 "a", exRow 20240201 "b"] :=
    ⟨List.Perm.swap (exRow 20240101 "a") (exRow 20240201 "b") [], by decide⟩
  exact ⟨hp, (c3_sort_amended _ _ hp).1⟩

/-- C4: for every sorted series group with n >= 8 rows, initial_test is
the last 8 rows (length exactly 8), train is every row strictly before
initial_test, len(final_test) + 4 = len(initial_test), and train ++
initial_test reconstructs the full sorted series. -/
theorem c4_split_invariants (df : List SRow)
    (_hsorted : List.Pairwise (fun r s => na_last_le r.start_date s.start_date = true) df)
    (h8 : 8 ≤ df.length) :
    (split_sorted df).initial_test = df.drop (df.length - 8) ∧
    (split_sorted df).initial_test.length = 8 ∧
    (split_sorted df).final_test.length + 4 = (split_sorted df).initial_test.length ∧
    (split_sorted df).train = df.take (df.length - 8) ∧
    (split_sorted df).train ++ (split_sorted df).initial_test = df := by
  have hlen : (df.drop (df.length - 8)).length = 8 := by
    rw [List.length_drop]; omega
  refine ⟨rfl, hlen, ?_, rfl, List.take_append_drop _ _⟩
  show ((df.drop (df.length - 8)).take ((df.drop (df.length - 8)).length - 4)).length + 4 =
    (df.drop (df.length - 8)).length
  rw [List.length_take, hlen]
  decide

/-- C4, witness at a concrete sorted 9-row group. -/
theorem c4_split_invariants_witness :
    List.Pairwise (fun r s => na_last_le r.start_date s.start_date = true) exGroup9 ∧
    8 ≤ exGroup9.length ∧
    (split_sorted exGroup9).initial_test.length = 8 :=
  ⟨by decide, by decide,
    (c4_split_invariants exGroup9 (by decide) (by decide)).2.1⟩

/-- C7: a series group with fewer rows than the minimum-data-points
threshold is skipped entirely: the splitter emits no output at all. -/
theorem c7_undersized_skip (raw : List RawSRow) (min_dp : Nat)
    (out : Option SplitResult)
    (hp : ProcessSingleFile raw min_dp out) (hlt : raw.length < min_dp) :
    out = none := by
  obtain ⟨sorted, ⟨hperm, _⟩, hout⟩ := hp
  have hl : sorted.length = raw.length := by
    rw [← hperm.length_eq, List.length_map]
  rw [hout, if_pos (by rw [hl]; exact hlt)]

/-- C7, witness: a concrete 7-row group at the default threshold 8
produces no split output. -/
theorem c7_undersized_skip_witness :
    ProcessSingleFile ex7raw 8 none ∧ ex7raw.length < 8 ∧
    (none : Option SplitResult) = none := by
  have hp : ProcessSingleFile ex7raw 8 none :=
    ⟨List.map coerce_row ex7raw, ⟨List.Perm.refl _, by decide⟩, rfl⟩
  exact ⟨hp, by decide, c7_undersized_skip ex7raw 8 none hp (by decide)⟩

/-- C8: a series group with exactly 8 rows still yields a full
three-slice result whose train slice is empty: all three artifacts are
emitted, with initial_test of length 8 and final_test of length 4. -/
theorem c8_exactly_eight (raw : List RawSRow) (out : Option SplitResult)
    (hp : ProcessSingleFile raw 8 out) (h8 : raw.length = 8) :
    ∃ r, out = some r ∧ r.train = [] ∧ r.initial_test.length = 8 ∧
      r.final_test.length = 4 := by
  obtain ⟨sorted, ⟨hperm, _⟩, hout⟩ := hp
  have hl : sorted.length = 8 := by
    rw [← hperm.length_eq, List.length_map, h8]
  refine ⟨split_sorted sorted, ?_, ?_, ?_, ?_⟩
  · rw [hout, if_neg (by rw [hl]; exact lt_irrefl 8)]
  · show sorted.take (sorted.length - 8) = []
    rw [hl]
    simp
  · show (sorted.drop (sorted.length - 8)).length = 8
    rw [List.length_drop, hl]
  · show ((sorted.drop (sorted.length - 8)).take
      ((sorted.drop (sorted.length - 8)).length - 4)).length = 4
    rw [List.length_take, List.length_drop, hl]
    decide

/-- C8, witness at a concrete 8-row group. -/
theorem c8_exactly_eight_witness :
    ProcessSingleFile ex8raw 8 (some (split_sorted (List.map coerce_row ex8raw))) ∧
    ex8raw.length = 8 ∧
    ∃ r, some (split_sorted (List.map coerce_row ex8raw)) = some r ∧ r.train = [] ∧
      r.initial_test.length = 8 ∧ r.final_test.length = 4 := by
  have hp : ProcessSingleFile ex8raw 8 (some (split_sorted (List.map coerce_row ex8raw))) :=
    ⟨List.map coerce_row ex8raw, ⟨List.Perm.refl _, by decide⟩, rfl⟩
  exact ⟨hp, rfl, c8_exactly_eight ex8raw _ hp rfl⟩

/-- C10: timestamps that fail to parse are coerced to null, the sort
places nulls after every valid timestamp, and hence in a group of
n >= 8 rows with at most 8 null rows every null row sits at a position
of the last-8 window that becomes initial_test. -/
theorem c10_nulls_last_window (raw : List RawSRow) (sorted : List SRow)
    (hs : SortValuesOut (raw.map coerce_row) sorted)
    (h8 : 8 ≤ sorted.length)
    (hk : sorted.countP (fun r => r.start_date.isNone) ≤ 8) :
    (∀ r : RawSRow, to_datetime r.start_date = none →
      (coerce_row r).start_date = none) ∧
    (split_sorted sorted).initial_test = sorted.drop (sorted.length - 8) ∧
    ∀ (i : Fin sorted.length), (sorted.get i).start_date = none →
      sorted.length - 8 ≤ (i : Nat) := by
  obtain ⟨hperm, hpw⟩ := hs
  refine ⟨fun r h => by simp [coerce_row, h], rfl, ?_⟩
  intro i hnull
  by_contra hlt
  push_neg at hlt
  have hafter : ∀ (j : Fin sorted.length), (i : Nat) ≤ (j : Nat) →
      (sorted.get j).start_date = none := by
    intro j hij
    rcases Nat.eq_or_lt_of_le hij with heq | hjlt
    · have : i = j := Fin.ext heq
      rwa [← this]
    · have hle := List.pairwise_iff_get.mp hpw i j hjlt
      rw [hnull] at hle
      cases hj : (sorted.get j).start_date with
      | none => rfl
      | some y => rw [hj] at hle; simp [na_last_le] at hle
  have hdropall : ∀ r ∈ sorted.drop (i : Nat),
      (fun r : SRow => r.start_date.isNone) r = true := by
    intro r hr
    rw [List.mem_drop_iff_getElem] at hr
    obtain ⟨k, hk2, hrk⟩ := hr
    have := hafter ⟨(i : Nat) + k, by omega⟩ (Nat.le_add_right _ _)
    simp only [List.get_eq_getElem] at this
    rw [← hrk]
    simp [this]
  have hcntdrop : (sorted.drop (i : Nat)).countP (fun r => r.start_date.isNone) =
      (sorted.drop (i : Nat)).length := List.countP_eq_length.mpr hdropall
  have hsplit : sorted.countP (fun r => r.start_date.isNone) =
      (sorted.take (i : Nat)).countP (fun r => r.start_date.isNone) +
      (sorted.drop (i : Nat)).countP (fun r => r.start_date.isNone) := by
    rw [← List.countP_append, List.take_append_drop]
  have hdl : (sorted.drop (i : Nat)).length = sorted.length - (i : Nat) :=
    List.length_drop _ _
  omega

/-- C10, witness: a concrete 9-row group with two unparseable
timestamps, sorted with the nulls last. -/
theorem c10_nulls_last_window_witness :
    SortValuesOut (exNullRaw.map coerce_row) exNullSorted ∧
    8 ≤ exNullSorted.length ∧
    exNullSorted.countP (fun r => r.start_date.isNone) ≤ 8 ∧
    (split_sorted exNullSorted).initial_test =
      exNullSorted.drop (exNullSorted.length - 8) := by
  have hp : SortValuesOut (exNullRaw.map coerce_row) exNullSorted :=
    ⟨by decide, by decide⟩
  exact ⟨hp, by decide, by decide,
    (c10_nulls_last_window exNullRaw exNullSorted hp (by decide) (by decide)).2.1⟩

/-- C2, counterexample: a decodable period dict carrying type but no
start_date key yields the partially-populated pair (M, null), so a
missing key is not an all-or-nothing failure. -/
theorem c2_partial_pair_counterexample :
    parse_period c2input = (some (PyVal.str "M"), none) ∧
    parse_period c2input ≠ ((none, none) : Option PyVal × Option PyVal) := by
  refine ⟨rfl, fun h => ?_⟩
  rw [show parse_period c2input = (some (PyVal.str "M"), none) from rfl] at h
  simp [Prod.ext_iff] at h

/-- C2, amended: the raising failures are all-or-nothing — whenever the
decoded value is not a dict (so attribute access raises and the except
clause fires), parse_period returns (null, null); but a decoded dict
with exactly one of the keys missing returns null for that component
only, so one-sided pairs do occur. -/
theorem c2_all_or_nothing_amended (s : String) (v : PyVal)
    (hv : json_loads (py_replace_quotes s) = some v)
    (hno : py_is_obj v = false) :
    parse_period s = (none, none) := by
  unfold parse_period
  rw [hv]
  cases v
  case obj fields => simp [py_is_obj] at hno
  all_goals rfl

/-- C2, witness: a decodable non-dict period value. -/
theorem c2_all_or_nothing_amended_witness :
    json_loads (py_replace_quotes "[1, 2]") =
      some (PyVal.arr [PyVal.num "1", PyVal.num "2"]) ∧
    py_is_obj (PyVal.arr [PyVal.num "1", PyVal.num "2"]) = false ∧
    parse_period "[1, 2]" = (none, none) :=
  ⟨rfl, rfl, c2_all_or_nothing_amended "[1, 2]" _ rfl rfl⟩

/-- C5, counterexample: a period string of the spec's two-level wrapped
form whose type-tag key is N rather than S parses to (null, null), not
to its payloads, because the code reads the hard-coded tag key S. -/
theorem c5_tag_counterexample :
    parse_period c5input = ((none, none) : Option PyVal × Option PyVal) ∧
    parse_period c5input ≠
      (some (PyVal.str "M"), some (PyVal.str "2024-01-01")) := by
  refine ⟨rfl, fun h => ?_⟩
  rw [show parse_period c5input = ((none, none) : Option PyVal × Option PyVal) from rfl] at h
  simp [Prod.ext_iff] at h

/-- C5, amended: for every valid period string of the wrapped form
whose tag key is the literal S — single- or double-quoted, with plain
payloads — parse_period returns exactly (T, D). -/
theorem c5_valid_period_amended (T D : String) (hT : plain_str T) (hD : plain_str D) :
    parse_period (mk_period_str '"' T D) =
      (some (PyVal.str T), some (PyVal.str D)) ∧
    parse_period (mk_period_str sqChar T D) =
      (some (PyVal.str T), some (PyVal.str D)) := by
  constructor
  · unfold parse_period
    rw [py_replace_mk_dq T D hT hD, json_loads_mk T D hT hD]
    rfl
  · unfold parse_period
    rw [py_replace_mk_sq T D hT hD, json_loads_mk T D hT hD]
    rfl

/-- C5, witness: the single-quoted monthly example of the spec. -/
theorem c5_valid_period_amended_witness :
    plain_str "M" ∧ plain_str "2024-01-01" ∧
    parse_period (mk_period_str sqChar "M" "2024-01-01") =
      (some (PyVal.str "M"), some (PyVal.str "2024-01-01")) :=
  ⟨rfl, rfl, (c5_valid_period_amended "M" "2024-01-01" rfl rfl).2⟩

/-- C6, counterexample: a decodable period dict with the type key
missing (start_date present) returns (null, 2024-01-01), not
(null, null). -/
theorem c6_missing_key_counterexample :
    parse_period c6input = (none, some (PyVal.str "2024-01-01")) ∧
    parse_period c6input ≠ ((none, none) : Option PyVal × Option PyVal) := by
  refine ⟨rfl, fun h => ?_⟩
  rw [show parse_period c6input = (none, some (PyVal.str "2024-01-01")) from rfl] at h
  simp [Prod.ext_iff] at h

/-- C6, amended: for every period string on which the decode itself
fails, parse_period returns (null, null) — and, the embedding being a
total function, never raises; only the missing-key clause of the claim
fails (see the counterexample). -/
theorem c6_malformed_amended (s : String)
    (h : json_loads (py_replace_quotes s) = none) :
    parse_period s = (none, none) := by
  unfold parse_period
  rw [h]

/-- C6, witness: non-JSON garbage. -/
theorem c6_malformed_amended_witness :
    json_loads (py_replace_quotes "not json") = none ∧
    parse_period "not json" = (none, none) :=
  ⟨rfl, c6_malformed_amended "not json" rfl⟩

/-- C9: schema validation fails exactly when one of the required
columns is absent (the spec's entity_id naming the source's partner_id
column per its glossary), and on failure the Except.error carries no
rows at all while on success every input row is processed. -/
theorem c9_schema_validation (df : RawFrame) :
    ((∃ e, load_and_validate_data df = Except.error e) ↔
      ∃ c ∈ required_columns, c ∉ df.columns) ∧
    ∀ res, load_and_validate_data df = Except.ok res →
      res.rows.length = df.rows.length := by
  unfold load_and_validate_data
  by_cases hall : required_columns.all (fun c => df.columns.contains c) = true
  · rw [if_pos hall]
    simp only [List.all_eq_true] at hall
    constructor
    · constructor
      · rintro ⟨e, he⟩
        exact absurd he (by simp)
      · rintro ⟨c, hc, hnc⟩
        exact absurd (by simpa using hall c hc) hnc
    · rintro res hres
      injection hres with h
      rw [← h]
      simp
  · rw [if_neg hall]
    constructor
    · simp only [List.all_eq_true, not_forall] at hall
      constructor
      · rintro _
        obtain ⟨c, hc, hnc⟩ := hall
        refine ⟨c, hc, fun hmem => hnc (by simpa using hmem)⟩
      · rintro _
        exact ⟨"Missing required columns", rfl⟩
    · rintro res hres
      exact absurd hres (by simp)

end RevForecast
